import Mathlib

/-!
Verification of the Navigation & Page-Readiness Detection Engine of the
trmnl-home-assistant repository, as a shallow embedding in Lean 4.

The embedded code comes from:
- lib/browser/navigation-commands.ts (NavigateToPage, WaitForPageLoad,
  WaitForPageStable, WaitForNetworkIdle)
- html/shared/screenshot-target.ts (resolveScreenshotTarget)

Conventions of the embedding:
- JavaScript strings are Lean String values; String.prototype.startsWith is
  embedded as list-prefix testing on the character data.
- WHATWG URL values are a structure of scheme, host, optional port and path;
  parsing normalizes default ports (80 for http, 443 for https) to an absent
  port, and serialization prints the stored port, exactly as the URL class
  does for the absolute-path references the engine resolves.
- The configured home-assistant base URL is kept both as a structured value
  and as the raw configured string (rawBaseString), since the code compares
  raw strings with startsWith while the URL constructor parses.
- Asynchronous browser effects (page.goto outcomes, poll samples read by the
  busy-wait loops, instrumentation events) are passed in as explicit data;
  Date.now readings within one loop iteration are modelled as a single
  per-iteration clock value.
- Thrown JS exceptions are Except values; counters of side-effecting calls
  (hook registration/removal, full page loads, client-side transitions) are
  returned as traces.
-/

namespace TrmnlHA

/-- Embedding of JS String.prototype.startsWith: s starts with pre. -/
def jsStartsWith (s pre : String) : Bool :=
  pre.data.isPrefixOf s.data

/-- Embedding of JS truthiness of an optional string value: an absent value
and the empty string are both falsy. -/
def jsTruthy : Option String → Bool
  | none => false
  | some s => !(s == "")

/-- Embedding of the JS or-fallback v || dflt on an optional string: an
absent or empty (falsy) value yields the default. -/
def jsOrDefault (v : Option String) (dflt : String) : String :=
  match v with
  | none => dflt
  | some s => if s = "" then dflt else s

/-- A parsed WHATWG URL: scheme, host, optional port, path. -/
structure UrlParts where
  scheme : String
  host : String
  port : Option Nat
  path : String
deriving DecidableEq, Repr

/-- Default port of a scheme (80 for http, 443 for https). -/
def defaultPort (scheme : String) : Option Nat :=
  if scheme = "http" then some 80
  else if scheme = "https" then some 443
  else none

/-- WHATWG URL parsing stores no port when it equals the scheme default. -/
def normalizePort (scheme : String) (port : Option Nat) : Option Nat :=
  if port = defaultPort scheme then none else port

/-- Serialization of the optional port component. -/
def portSuffix : Option Nat → String
  | none => ""
  | some p => ":" ++ toString p

/-- The raw configured base-URL string as the code stores it
(scheme://host with the port exactly as configured, no path). -/
def rawBaseString (u : UrlParts) : String :=
  u.scheme ++ "://" ++ u.host ++ portSuffix u.port

/-- Embedding of new URL(pagePath, base) for an absolute pagePath:
scheme and host come from the base, the port is normalized against the
scheme default, the path is replaced. -/
def resolveUrl (pagePath : String) (base : UrlParts) : UrlParts :=
  ⟨base.scheme, base.host, normalizePort base.scheme base.port, pagePath⟩

/-- Embedding of URL.prototype.toString: serialize the stored components. -/
def urlToString (u : UrlParts) : String :=
  u.scheme ++ "://" ++ u.host ++ portSuffix u.port ++ u.path

/-- Modelled from the spec: origin equality of two URLs, computed after
normalizing default ports (80 for http, 443 for https) to an absent-port
form. The code never computes this; the spec's invariant 1 demands it. -/
def originEqSpec (a b : UrlParts) : Bool :=
  a.scheme == b.scheme && a.host == b.host &&
    normalizePort a.scheme a.port == normalizePort b.scheme b.port

/-- An HTTP response as NavigateToPage observes it: ok flag and status. -/
structure PageResponse where
  ok : Bool
  status : Nat
deriving DecidableEq, Repr

/-- Outcome of a page.goto call: the promise rejects with an error message,
or resolves with an optional response. -/
inductive GotoOutcome
  | thrown (msg : String)
  | resolved (response : Option PageResponse)
deriving DecidableEq, Repr

/-- The CannotOpenPageError payload: status, resolved url, optional message. -/
structure CannotOpenPageError where
  status : Nat
  url : String
  message : Option String
deriving DecidableEq, Repr

/-- NavigationResult: the recommended wait time in milliseconds. -/
structure NavigationResult where
  waitTime : Nat
deriving DecidableEq, Repr

/-- Counts of hook side effects during one first navigation:
evaluateOnNewDocument registrations, removeScriptToEvaluateOnNewDocument
removals, and page.goto calls. -/
structure FirstNavTrace where
  registered : Nat
  removed : Nat
  gotoCalls : Nat
deriving DecidableEq, Repr

/-- Embedding of NavigateToPage.#shouldInjectAuth:
pageUrl.startsWith(this.#homeAssistantUrl). -/
def shouldInjectAuth (homeAssistantUrl pageUrl : String) : Bool :=
  jsStartsWith pageUrl homeAssistantUrl

/-- The resolved destination of a first navigation: the JS or-expression
targetUrl || new URL(pagePath, homeAssistantUrl).toString(), so an absent
or empty (falsy) targetUrl falls back to the resolved page path. -/
def firstNavigationPageUrl (base : UrlParts) (pagePath : String)
    (targetUrl : Option String) : String :=
  jsOrDefault targetUrl (urlToString (resolveUrl pagePath base))

/-- Embedding of NavigateToPage.#firstNavigation. The goto outcome is an
input; the returned trace counts hook registrations and removals on the
taken path exactly as the code performs them. -/
def firstNavigation (base : UrlParts) (defaultWait coldExtra : Nat)
    (isAddOn : Bool) (pagePath : String) (targetUrl : Option String)
    (outcome : GotoOutcome) :
    Except CannotOpenPageError NavigationResult × FirstNavTrace :=
  let pageUrl := firstNavigationPageUrl base pagePath targetUrl
  let injectAuth := shouldInjectAuth (rawBaseString base) pageUrl
  let registered := if injectAuth then 1 else 0
  match outcome with
  | .thrown msg =>
      (.error ⟨0, pageUrl, some msg⟩,
       ⟨registered, if injectAuth then 1 else 0, 1⟩)
  | .resolved response =>
      if response.elim false (·.ok) then
        (.ok ⟨defaultWait + (if isAddOn then coldExtra else 0)⟩,
         ⟨registered, if injectAuth then 1 else 0, 1⟩)
      else
        (.error ⟨response.elim 0 (·.status), pageUrl, none⟩,
         ⟨registered, if injectAuth then 1 else 0, 1⟩)

/-- Counts of navigation side effects during one subsequent navigation:
page.goto calls, client-side history/location transitions, and auth
injections (the subsequent path performs none). -/
structure SubNavTrace where
  gotoCalls : Nat
  clientSideCalls : Nat
  authInjections : Nat
deriving DecidableEq, Repr

/-- Embedding of NavigateToPage.#subsequentNavigation. currentUrl is the
value of page.url(); isGenericUrl embeds the JS double negation
!!targetUrl, so an empty-string targetUrl is not generic; the goto outcome
is consulted only on the full-load path, since the client-side path issues
no page.goto. -/
def subsequentNavigation (base : UrlParts) (defaultWait : Nat)
    (currentUrl pagePath : String) (targetUrl : Option String)
    (outcome : GotoOutcome) :
    Except CannotOpenPageError NavigationResult × SubNavTrace :=
  let isGenericUrl := jsTruthy targetUrl
  let isCurrentlyOnHA := jsStartsWith currentUrl (rawBaseString base)
  if isGenericUrl || !isCurrentlyOnHA then
    let pageUrl := jsOrDefault targetUrl (urlToString (resolveUrl pagePath base))
    match outcome with
    | .thrown msg => (.error ⟨0, pageUrl, some msg⟩, ⟨1, 0, 0⟩)
    | .resolved response =>
        if response.elim false (·.ok) then
          (.ok ⟨defaultWait⟩, ⟨1, 0, 0⟩)
        else
          (.error ⟨response.elim 0 (·.status), pageUrl, none⟩, ⟨1, 0, 0⟩)
  else
    (.ok ⟨defaultWait⟩, ⟨0, 1, 0⟩)

/-- WaitForPageStable's required consecutive unchanged sample count. -/
def requiredStableChecks : Nat := 3

/-- WaitForPageStable's default timeout (constructor default, ms). -/
def defaultStableTimeout : Nat := 5000

/-- WaitForNetworkIdle's default timeout (constructor default, ms). -/
def defaultNetworkIdleTimeout : Nat := 10000

/-- WaitForNetworkIdle's default quiet window (constructor default, ms). -/
def defaultNetworkIdleTime : Nat := 500

/-- Result of a detector's busy-wait loop: the ready condition fired, or the
timeout deadline was crossed; either way the elapsed wait is returned and no
exception escapes. -/
inductive WaitOutcome
  | finished (wait : Nat)
  | timedOut (wait : Nat)
deriving DecidableEq, Repr

/-- One loop iteration of WaitForNetworkIdle as the model observes it:
the Date.now reading of the iteration, the pendingRequests counter and the
lastActivityTime value as maintained by the instrumentation callbacks. -/
structure NetPoll where
  time : Nat
  pending : Int
  lastActivity : Nat
deriving DecidableEq, Repr

/-- Embedding of WaitForNetworkIdle.call's while loop. Each NetPoll is one
iteration's observation; endTime is the Date.now reading of the loop-guard
evaluation in case every listed iteration was consumed. Returns the result
and the trace of elapsed values (now - start) computed at each check. -/
def networkIdleLoop (start timeout idleTime endTime : Nat) :
    List NetPoll → WaitOutcome × List Nat
  | [] => (.timedOut (endTime - start), [endTime - start])
  | p :: rest =>
    if p.time - start < timeout then
      if p.pending = 0 ∧ idleTime ≤ p.time - p.lastActivity then
        (.finished (p.time - start), [p.time - start])
      else
        let next := networkIdleLoop start timeout idleTime endTime rest
        (next.1, (p.time - start) :: next.2)
    else
      (.timedOut (p.time - start), [p.time - start])

/-- The instrumentation events WaitForNetworkIdle subscribes to. -/
inductive NetworkEvent
  | requestWillBeSent
  | loadingFinished
  | loadingFailed
deriving DecidableEq, Repr

/-- Embedding of the three event callbacks' effect on pendingRequests:
a request start increments, a completion sets max(0, n - 1). -/
def applyNetworkEvent (pending : Int) : NetworkEvent → Int
  | .requestWillBeSent => pending + 1
  | .loadingFinished => max 0 (pending - 1)
  | .loadingFailed => max 0 (pending - 1)

/-- The pendingRequests counter after a sequence of instrumentation events,
starting from its initial value 0. -/
def pendingAfter (events : List NetworkEvent) : Int :=
  events.foldl applyNetworkEvent 0

/-- Embedding of WaitForNetworkIdle.call including its try/catch: attaching
the instrumentation channel either fails (the catch returns now - start) or
yields the loop's iterations; the returned value is a plain number on every
path — the call never throws. -/
def waitForNetworkIdleCall (start timeout idleTime : Nat)
    (attach : Except String (List NetPoll × Nat)) (failTime : Nat) : Nat :=
  match attach with
  | .error _ => failTime - start
  | .ok (polls, endTime) =>
      match (networkIdleLoop start timeout idleTime endTime polls).1 with
      | .finished w => w
      | .timedOut w => w

/-- One loop iteration of WaitForPageStable: the Date.now reading and the
evaluated metrics (document.body.scrollHeight and the shadow-content length
proxy). -/
structure StabilitySample where
  time : Nat
  height : Nat
  contentHash : Nat
deriving DecidableEq, Repr

/-- Embedding of WaitForPageStable.call's while loop. State arguments are
lastHeight, lastContent and stableChecks exactly as in the code; endTime is
the Date.now reading of the loop guard once every sample is consumed.
Returns the result and the trace of elapsed values at each check. -/
def pageStableLoop (start timeout endTime : Nat)
    (lastHeight lastContent stableChecks : Nat) :
    List StabilitySample → WaitOutcome × List Nat
  | [] => (.timedOut (endTime - start), [endTime - start])
  | s :: rest =>
    if s.time - start < timeout then
      if s.height = lastHeight ∧ s.contentHash = lastContent then
        if requiredStableChecks ≤ stableChecks + 1 then
          (.finished (s.time - start), [s.time - start])
        else
          let next := pageStableLoop start timeout endTime
            s.height s.contentHash (stableChecks + 1) rest
          (next.1, (s.time - start) :: next.2)
      else
        let next := pageStableLoop start timeout endTime
          s.height s.contentHash 0 rest
        (next.1, (s.time - start) :: next.2)
    else
      (.timedOut (s.time - start), [s.time - start])

/-- The (lastHeight, lastContent) pair after consuming a list of samples,
starting from the given pair — the code updates both on every iteration. -/
def lastMetrics (h c : Nat) : List StabilitySample → Nat × Nat
  | [] => (h, c)
  | s :: rest => lastMetrics s.height s.contentHash rest

/-- A run of m consecutive samples whose metrics all equal (h, c), each
observed inside the timeout window, the last one at elapsed value w. Used
to state that stability is only declared after such a run whose reference
metrics are those of the immediately preceding sample. -/
def stableChainB (start timeout w h c : Nat) :
    Nat → List StabilitySample → Bool
  | 0, _ => false
  | _ + 1, [] => false
  | 1, s :: _ =>
      decide (s.height = h) && decide (s.contentHash = c) &&
        decide (s.time - start < timeout) && decide (s.time - start = w)
  | m + 2, s :: rest =>
      decide (s.height = h) && decide (s.contentHash = c) &&
        decide (s.time - start < timeout) &&
        stableChainB start timeout w h c (m + 1) rest

/-- Outcome of the page.waitForFunction call inside WaitForPageLoad. -/
inductive PageLoadOutcome
  | success
  | timedOutErr (msg : String)
deriving DecidableEq, Repr

/-- Embedding of WaitForPageLoad.call including its try/catch: a timeout of
waitForFunction is caught and logged, so the call resolves on every path. -/
def waitForPageLoadCall : PageLoadOutcome → Except String Unit
  | .success => .ok ()
  | .timedOutErr _ => .ok ()

/-- Schedule fields consumed by resolveScreenshotTarget; optional fields are
Option values, matching absent properties. -/
structure ScheduleTarget where
  ha_mode : Option Bool
  dashboard_path : Option String
  target_url : Option String
deriving DecidableEq, Repr

/-- The resolved screenshot target of screenshot-target.ts. -/
structure ScreenshotTarget where
  path : String
  fullUrl : Option String
  isHAMode : Bool
deriving DecidableEq, Repr

/-- Default dashboard path when none specified. -/
def DEFAULT_DASHBOARD_PATH : String := "/lovelace/0"

/-- Embedding of resolveScreenshotTarget: HA mode (ha_mode absent defaults
to true) uses dashboard_path with the falsy fallback and no fullUrl;
generic mode uses path "/" and fullUrl = target_url. -/
def resolveScreenshotTarget (s : ScheduleTarget) : ScreenshotTarget :=
  let isHAMode := s.ha_mode.getD true
  if isHAMode then
    ⟨jsOrDefault s.dashboard_path DEFAULT_DASHBOARD_PATH, none, true⟩
  else
    ⟨"/", s.target_url, false⟩

/-! Helper lemmas -/

/-- In #firstNavigation the removal count equals the registration count on
every exit path: the one-shot hook is removed exactly when it was added. -/
theorem firstNavigation_removed_eq_registered (base : UrlParts)
    (dw ce : Nat) (addon : Bool) (pagePath : String)
    (targetUrl : Option String) (outcome : GotoOutcome) :
    (firstNavigation base dw ce addon pagePath targetUrl outcome).2.removed =
      (firstNavigation base dw ce addon pagePath targetUrl outcome).2.registered := by
  cases outcome with
  | thrown msg => rfl
  | resolved response =>
      simp only [firstNavigation]
      split <;> rfl

/-- The pendingRequests counter stays non-negative under any further events
whenever it starts non-negative. -/
theorem pendingAfter_aux (events : List NetworkEvent) :
    ∀ p : Int, 0 ≤ p → 0 ≤ events.foldl applyNetworkEvent p := by
  induction events with
  | nil => intro p hp; simpa using hp
  | cons e rest ih =>
      intro p hp
      rw [List.foldl_cons]
      refine ih _ ?_
      cases e with
      | requestWillBeSent => simp only [applyNetworkEvent]; omega
      | loadingFinished => exact le_max_left 0 _
      | loadingFailed => exact le_max_left 0 _

/-! Claim theorems -/

/-- C1: the spec and the repository's own unit tests require auth injection
exactly when the resolved destination's origin equals the configured origin
after default-port normalization, but the code's prefix check fails this:
with the configured base http://homeassistant:80 and page path /lovelace/0
the resolved URL http://homeassistant/lovelace/0 has the same normalized
origin, yet shouldInjectAuth is false and the first navigation registers no
auth hook. -/
theorem auth_injection_default_port_code_bug :
    shouldInjectAuth (rawBaseString ⟨"http", "homeassistant", some 80, "/"⟩)
        (firstNavigationPageUrl ⟨"http", "homeassistant", some 80, "/"⟩
          "/lovelace/0" none) = false ∧
    originEqSpec (resolveUrl "/lovelace/0" ⟨"http", "homeassistant", some 80, "/"⟩)
        ⟨"http", "homeassistant", some 80, "/"⟩ = true ∧
    (firstNavigation ⟨"http", "homeassistant", some 80, "/"⟩ 2000 0 false
        "/lovelace/0" none (.resolved (some ⟨true, 200⟩))).2.registered = 0 := by
  decide

/-- C2: whenever the auth-injection hook was registered on a first
navigation, it is removed exactly once, on every exit path (success,
transport error, and non-ok response alike). -/
theorem first_navigation_hook_removed_once (base : UrlParts) (dw ce : Nat)
    (addon : Bool) (pagePath : String) (targetUrl : Option String)
    (outcome : GotoOutcome)
    (hreg : (firstNavigation base dw ce addon pagePath targetUrl
      outcome).2.registered = 1) :
    (firstNavigation base dw ce addon pagePath targetUrl
      outcome).2.removed = 1 := by
  rw [firstNavigation_removed_eq_registered, hreg]

/-- Witness for C2: a concrete first navigation to the configured instance
whose transport throws still removes the hook exactly once. -/
theorem first_navigation_hook_removed_once_witness :
    (firstNavigation ⟨"http", "ha", none, "/"⟩ 2000 0 false "/x" none
      (.thrown "ECONNREFUSED")).2.removed = 1 :=
  first_navigation_hook_removed_once ⟨"http", "ha", none, "/"⟩ 2000 0 false
    "/x" none (.thrown "ECONNREFUSED") (by decide)

/-- C3 counterexample: with the configured base http://homeassistant:80 the
session's current document http://homeassistant/lovelace/0 (exactly what a
first navigation to this base produces) is on the configured origin after
default-port normalization and no explicit targetUrl is given, yet the
subsequent navigation issues one full page load and no client-side
transition, because the code's dispatch is a raw string prefix check. -/
theorem subsequent_navigation_origin_counterexample :
    originEqSpec (resolveUrl "/lovelace/0" ⟨"http", "homeassistant", some 80, "/"⟩)
        ⟨"http", "homeassistant", some 80, "/"⟩ = true ∧
    urlToString (resolveUrl "/lovelace/0" ⟨"http", "homeassistant", some 80, "/"⟩) =
      "http://homeassistant/lovelace/0" ∧
    (subsequentNavigation ⟨"http", "homeassistant", some 80, "/"⟩ 2000
        "http://homeassistant/lovelace/0" "/lovelace/1" none
        (.resolved (some ⟨true, 200⟩))).2.gotoCalls = 1 ∧
    (subsequentNavigation ⟨"http", "homeassistant", some 80, "/"⟩ 2000
        "http://homeassistant/lovelace/0" "/lovelace/1" none
        (.resolved (some ⟨true, 200⟩))).2.clientSideCalls = 0 := by
  decide

/-- C3 amended: a subsequent navigation performs the in-app client-side
transition (one history/location update, zero full page loads) exactly when
no truthy targetUrl is given (absent or empty string, per JS falsiness) and
the current document URL starts with the configured base URL string;
otherwise it issues exactly one full page load and injects no
authentication. -/
theorem subsequent_navigation_prefix_dispatch (base : UrlParts) (dw : Nat)
    (currentUrl pagePath : String) (targetUrl : Option String)
    (outcome : GotoOutcome) :
    (jsTruthy targetUrl = false →
      jsStartsWith currentUrl (rawBaseString base) = true →
      (subsequentNavigation base dw currentUrl pagePath targetUrl outcome).2 =
        ⟨0, 1, 0⟩ ∧
      (subsequentNavigation base dw currentUrl pagePath targetUrl outcome).1 =
        .ok ⟨dw⟩) ∧
    ((jsTruthy targetUrl = true ∨
        jsStartsWith currentUrl (rawBaseString base) = false) →
      (subsequentNavigation base dw currentUrl pagePath targetUrl
        outcome).2.gotoCalls = 1 ∧
      (subsequentNavigation base dw currentUrl pagePath targetUrl
        outcome).2.clientSideCalls = 0 ∧
      (subsequentNavigation base dw currentUrl pagePath targetUrl
        outcome).2.authInjections = 0) := by
  constructor
  · intro hfalsy hon
    simp [subsequentNavigation, hfalsy, hon]
  · intro hfull
    have hcond : (jsTruthy targetUrl ||
        !jsStartsWith currentUrl (rawBaseString base)) = true := by
      rcases hfull with h | h <;> simp [h]
    cases outcome with
    | thrown msg => simp [subsequentNavigation, hcond]
    | resolved response =>
        simp only [subsequentNavigation, hcond, if_true]
        split <;> exact ⟨rfl, rfl, rfl⟩

/-- Witness for C3 amended: a session already on the configured base (as a
raw-string prefix) with an empty-string targetUrl — falsy in JS — performs
exactly one client-side transition and zero full loads. -/
theorem subsequent_navigation_prefix_dispatch_witness :
    (subsequentNavigation ⟨"http", "homeassistant", some 8123, "/"⟩ 2000
      "http://homeassistant:8123/lovelace/0" "/lovelace/1" (some "")
      (.resolved (some ⟨true, 200⟩))).2 = ⟨0, 1, 0⟩ :=
  ((subsequent_navigation_prefix_dispatch ⟨"http", "homeassistant", some 8123, "/"⟩
    2000 "http://homeassistant:8123/lovelace/0" "/lovelace/1" (some "")
    (.resolved (some ⟨true, 200⟩))).1 (by decide) (by decide)).1

/-- C4: every failed full-page-load attempt raises CannotOpenPageError with
status 0 when the transport throws before any response, the actual HTTP
status when a response arrives but is not ok, and the resolved destination
URL in both cases; the client-side navigation path raises nothing. -/
theorem navigation_failure_status_and_url (base : UrlParts) (dw ce : Nat)
    (addon : Bool) (pagePath currentUrl msg : String)
    (targetUrl : Option String) (resp : PageResponse) :
    ((firstNavigation base dw ce addon pagePath targetUrl (.thrown msg)).1 =
      .error ⟨0, firstNavigationPageUrl base pagePath targetUrl, some msg⟩) ∧
    (resp.ok = false →
      (firstNavigation base dw ce addon pagePath targetUrl
        (.resolved (some resp))).1 =
      .error ⟨resp.status, firstNavigationPageUrl base pagePath targetUrl, none⟩) ∧
    ((jsTruthy targetUrl = true ∨
        jsStartsWith currentUrl (rawBaseString base) = false) →
      (subsequentNavigation base dw currentUrl pagePath targetUrl
          (.thrown msg)).1 =
        .error ⟨0, jsOrDefault targetUrl (urlToString (resolveUrl pagePath base)),
          some msg⟩ ∧
      (resp.ok = false →
        (subsequentNavigation base dw currentUrl pagePath targetUrl
            (.resolved (some resp))).1 =
          .error ⟨resp.status,
            jsOrDefault targetUrl (urlToString (resolveUrl pagePath base)),
            none⟩)) ∧
    (jsTruthy targetUrl = false →
      jsStartsWith currentUrl (rawBaseString base) = true →
      ∀ o : GotoOutcome,
        (subsequentNavigation base dw currentUrl pagePath targetUrl o).1 =
          .ok ⟨dw⟩) := by
  refine ⟨rfl, ?_, ?_, ?_⟩
  · intro hok
    simp [firstNavigation, hok]
  · intro hfull
    have hcond : (jsTruthy targetUrl ||
        !jsStartsWith currentUrl (rawBaseString base)) = true := by
      rcases hfull with h | h <;> simp [h]
    constructor
    · simp [subsequentNavigation, hcond]
    · intro hok
      simp [subsequentNavigation, hcond, hok]
  · intro hfalsy hon o
    simp [subsequentNavigation, hfalsy, hon]

/-- Witness for C4: concrete failures carry status 0 on transport error and
the HTTP status 503 on a non-ok response, with the resolved URL. -/
theorem navigation_failure_status_and_url_witness :
    ((firstNavigation ⟨"http", "ha", none, "/"⟩ 2000 0 false "/x" none
        (.thrown "DNS")).1 =
      .error ⟨0, "http://ha/x", some "DNS"⟩) ∧
    ((firstNavigation ⟨"http", "ha", none, "/"⟩ 2000 0 false "/x" none
        (.resolved (some ⟨false, 503⟩))).1 =
      .error ⟨503, "http://ha/x", none⟩) :=
  ⟨(navigation_failure_status_and_url ⟨"http", "ha", none, "/"⟩ 2000 0 false
      "/x" "about:blank" "DNS" none ⟨false, 503⟩).1,
   (navigation_failure_status_and_url ⟨"http", "ha", none, "/"⟩ 2000 0 false
      "/x" "about:blank" "DNS" none ⟨false, 503⟩).2.1 rfl⟩

/-- C8: detector degradation never throws: when the instrumentation channel
cannot be attached, WaitForNetworkIdle returns the elapsed time, and
WaitForPageLoad resolves successfully whether waitForFunction succeeded or
timed out. -/
theorem detectors_degrade_without_throwing :
    (∀ (start timeout idleTime failTime : Nat) (msg : String),
      waitForNetworkIdleCall start timeout idleTime (.error msg) failTime =
        failTime - start) ∧
    (∀ o : PageLoadOutcome, waitForPageLoadCall o = .ok ()) := by
  refine ⟨fun start timeout idleTime failTime msg => rfl, fun o => ?_⟩
  cases o <;> rfl

/-- C9: the in-flight request counter is never negative: any sequence of
instrumentation events leaves it at 0 or more, and a completion event at 0
leaves it at 0 rather than driving it below. -/
theorem pending_counter_never_negative (events : List NetworkEvent) :
    0 ≤ pendingAfter events ∧
    applyNetworkEvent 0 .loadingFinished = 0 ∧
    applyNetworkEvent 0 .loadingFailed = 0 :=
  ⟨pendingAfter_aux events 0 le_rfl, rfl, rfl⟩

/-- C10: in HA mode (ha_mode true or absent) the resolved target has no
fullUrl and its path is dashboard_path, falling back to /lovelace/0 when
dashboard_path is absent or empty; in generic mode (ha_mode false) the path
is "/" and fullUrl is target_url. -/
theorem resolve_screenshot_target_modes (s : ScheduleTarget) :
    (s.ha_mode ≠ some false →
      (resolveScreenshotTarget s).fullUrl = none ∧
      (resolveScreenshotTarget s).isHAMode = true ∧
      (∀ p : String, s.dashboard_path = some p → p ≠ "" →
        (resolveScreenshotTarget s).path = p) ∧
      ((s.dashboard_path = none ∨ s.dashboard_path = some "") →
        (resolveScreenshotTarget s).path = "/lovelace/0")) ∧
    (s.ha_mode = some false →
      (resolveScreenshotTarget s).path = "/" ∧
      (resolveScreenshotTarget s).fullUrl = s.target_url ∧
      (resolveScreenshotTarget s).isHAMode = false) := by
  constructor
  · intro hha
    have hmode : s.ha_mode.getD true = true := by
      cases hb : s.ha_mode with
      | none => rfl
      | some b =>
          cases b with
          | false => exact absurd hb hha
          | true => rfl
    refine ⟨?_, ?_, ?_, ?_⟩
    · simp [resolveScreenshotTarget, hmode]
    · simp [resolveScreenshotTarget, hmode]
    · intro p hp hne
      simp [resolveScreenshotTarget, hmode, jsOrDefault, hp, hne]
    · intro hd
      rcases hd with hd | hd <;>
        simp [resolveScreenshotTarget, hmode, jsOrDefault, hd,
          DEFAULT_DASHBOARD_PATH]
  · intro hfalse
    simp [resolveScreenshotTarget, hfalse]

/-- Witness for C10: a concrete HA-mode schedule with empty dashboard_path
falls back to /lovelace/0 with no fullUrl. -/
theorem resolve_screenshot_target_modes_witness :
    (resolveScreenshotTarget ⟨none, some "", some "https://example.com"⟩).fullUrl
      = none ∧
    (resolveScreenshotTarget ⟨none, some "", some "https://example.com"⟩).path
      = "/lovelace/0" :=
  ⟨((resolve_screenshot_target_modes
      ⟨none, some "", some "https://example.com"⟩).1 (by decide)).1,
   ((resolve_screenshot_target_modes
      ⟨none, some "", some "https://example.com"⟩).1 (by decide)).2.2.2
    (Or.inr rfl)⟩

/-- C5: WaitForNetworkIdle declares idle before its timeout only at a check
where the in-flight count is 0 and no activity happened for at least the
configured quiet window (whose constructor default is 500 ms); it never
reports idle while the in-flight count is positive. -/
theorem network_idle_requires_zero_pending
    (start timeout idleTime endTime w : Nat) (polls : List NetPoll)
    (h : (networkIdleLoop start timeout idleTime endTime polls).1 =
      .finished w) :
    (∃ p ∈ polls, p.pending = 0 ∧ idleTime ≤ p.time - p.lastActivity ∧
      p.time - start < timeout ∧ w = p.time - start) ∧
    defaultNetworkIdleTime = 500 := by
  refine ⟨?_, rfl⟩
  induction polls with
  | nil => simp [networkIdleLoop] at h
  | cons p rest ih =>
      rw [networkIdleLoop] at h
      by_cases ht : p.time - start < timeout
      · rw [if_pos ht] at h
        by_cases hi : p.pending = 0 ∧ idleTime ≤ p.time - p.lastActivity
        · rw [if_pos hi] at h
          have hw : w = p.time - start := by
            have := h.symm
            simpa using this
          exact ⟨p, List.mem_cons_self _ _, hi.1, hi.2, ht, hw⟩
        · rw [if_neg hi] at h
          obtain ⟨q, hq, h1, h2, h3, h4⟩ := ih h
          exact ⟨q, List.mem_cons_of_mem _ hq, h1, h2, h3, h4⟩
      · rw [if_neg ht] at h
        simp at h

/-- Witness for C5: a concrete run goes idle at 600 ms with zero pending
requests and a 550 ms quiet gap. -/
theorem network_idle_requires_zero_pending_witness :
    (∃ p ∈ [(⟨600, 0, 50⟩ : NetPoll)], p.pending = 0 ∧
      500 ≤ p.time - p.lastActivity ∧ p.time - 0 < 10000 ∧
      600 = p.time - 0) ∧
    defaultNetworkIdleTime = 500 :=
  network_idle_requires_zero_pending 0 10000 500 0 600 [⟨600, 0, 50⟩]
    (by decide)

/-- Generalized soundness of the stability loop: from any counter value
k ≤ 2, a finished run decomposes the samples into a consumed prefix and a
run of m consecutive unchanged in-window samples ending at the reported
wait, where the reference metrics are those of the sample immediately
before the run (or the incoming state), and m = 3 unless the run began
immediately with counter k already at 3 - m. -/
theorem pageStableLoop_finished_chain_aux (start timeout endTime : Nat) :
    ∀ (samples : List StabilitySample) (h c k w : Nat), k ≤ 2 →
    (pageStableLoop start timeout endTime h c k samples).1 = .finished w →
    ∃ l₁ l₂ m, samples = l₁ ++ l₂ ∧
      stableChainB start timeout w (lastMetrics h c l₁).1
        (lastMetrics h c l₁).2 m l₂ = true ∧
      (m = 3 ∨ (l₁ = [] ∧ m + k = 3)) := by
  intro samples
  induction samples with
  | nil =>
      intro h c k w hk hfin
      simp [pageStableLoop] at hfin
  | cons s rest ih =>
      intro h c k w hk hfin
      rw [pageStableLoop] at hfin
      by_cases ht : s.time - start < timeout
      · rw [if_pos ht] at hfin
        by_cases hu : s.height = h ∧ s.contentHash = c
        · rw [if_pos hu] at hfin
          by_cases h3 : requiredStableChecks ≤ k + 1
          · rw [if_pos h3] at hfin
            have hw : w = s.time - start := by
              have := hfin.symm
              simpa using this
            have hk2 : k = 2 := by
              simp only [requiredStableChecks] at h3
              omega
            refine ⟨[], s :: rest, 1, rfl, ?_, Or.inr ⟨rfl, by omega⟩⟩
            simp [stableChainB, lastMetrics, hu.1, hu.2, ht, hw]
          · rw [if_neg h3] at hfin
            have hk1 : k + 1 ≤ 2 := by
              simp only [requiredStableChecks] at h3
              omega
            obtain ⟨l₁, l₂, m, hsplit, hchain, hm⟩ :=
              ih s.height s.contentHash (k + 1) w hk1 hfin
            rcases hm with hm3 | ⟨hl₁, hmk⟩
            · refine ⟨s :: l₁, l₂, m, by rw [hsplit, List.cons_append], ?_,
                Or.inl hm3⟩
              simpa [lastMetrics] using hchain
            · subst hl₁
              have hrest : rest = l₂ := by simpa using hsplit
              subst hrest
              cases m with
              | zero => simp [stableChainB] at hchain
              | succ m' =>
                  refine ⟨[], s :: rest, m' + 2, rfl, ?_,
                    Or.inr ⟨rfl, by omega⟩⟩
                  rw [hu.1, hu.2] at hchain
                  simp only [stableChainB, Bool.and_eq_true,
                    decide_eq_true_eq]
                  exact ⟨⟨⟨hu.1, hu.2⟩, ht⟩, hchain⟩
        · rw [if_neg hu] at hfin
          obtain ⟨l₁, l₂, m, hsplit, hchain, hm⟩ :=
            ih s.height s.contentHash 0 w (by omega) hfin
          have hm3 : m = 3 := by
            rcases hm with h' | ⟨_, h'⟩
            · exact h'
            · omega
          refine ⟨s :: l₁, l₂, m, by rw [hsplit, List.cons_append], ?_,
            Or.inl hm3⟩
          simpa [lastMetrics] using hchain
      · rw [if_neg ht] at hfin
        simp at hfin

/-- C6: WaitForPageStable declares the page stable only after a run of 3
consecutive samples, each taken inside the timeout window, whose height and
content-size proxy equal those of the immediately preceding sample, the
last of which determines the reported wait; a sample that changes either
metric resets the consecutive counter to 0 regardless of its prior value;
and on timeout the loop returns the elapsed time as a value, raising
nothing. -/
theorem page_stable_three_consecutive (start timeout endTime w : Nat)
    (samples : List StabilitySample)
    (h : (pageStableLoop start timeout endTime 0 0 0 samples).1 =
      .finished w) :
    (∃ l₁ l₂, samples = l₁ ++ l₂ ∧
      stableChainB start timeout w (lastMetrics 0 0 l₁).1
        (lastMetrics 0 0 l₁).2 3 l₂ = true) ∧
    (∀ h' c' k eT : Nat,
      (pageStableLoop start timeout eT h' c' k []).1 = .timedOut (eT - start)) ∧
    (∀ (s : StabilitySample) (rest : List StabilitySample) (h' c' k eT : Nat),
      s.time - start < timeout → ¬(s.height = h' ∧ s.contentHash = c') →
      pageStableLoop start timeout eT h' c' k (s :: rest) =
        ((pageStableLoop start timeout eT s.height s.contentHash 0 rest).1,
         (s.time - start) ::
           (pageStableLoop start timeout eT s.height s.contentHash 0
             rest).2)) := by
  refine ⟨?_, fun h' c' k eT => rfl, fun s rest h' c' k eT ht hu => ?_⟩
  · obtain ⟨l₁, l₂, m, hsplit, hchain, hm⟩ :=
      pageStableLoop_finished_chain_aux start timeout endTime samples 0 0 0 w
        (by omega) h
    have hm3 : m = 3 := by
      rcases hm with h' | ⟨_, h'⟩
      · exact h'
      · omega
    exact ⟨l₁, l₂, hsplit, hm3 ▸ hchain⟩
  · rw [pageStableLoop, if_pos ht, if_neg hu]

/-- Witness for C6: a concrete run stabilizes at 400 ms after three
consecutive unchanged samples following one change. -/
theorem page_stable_three_consecutive_witness :
    ∃ l₁ l₂, ([⟨100, 10, 20⟩, ⟨200, 10, 20⟩, ⟨300, 10, 20⟩, ⟨400, 10, 20⟩] :
        List StabilitySample) = l₁ ++ l₂ ∧
      stableChainB 0 5000 400 (lastMetrics 0 0 l₁).1 (lastMetrics 0 0 l₁).2
        3 l₂ = true :=
  (page_stable_three_consecutive 0 5000 0 400
    [⟨100, 10, 20⟩, ⟨200, 10, 20⟩, ⟨300, 10, 20⟩, ⟨400, 10, 20⟩]
    (by decide)).1

/-- Bound on the wait reported by the WaitForNetworkIdle loop: an idle exit
reports strictly less than the timeout; a timeout exit reports the elapsed
value at the first check past the deadline, which stays below timeout plus
the largest gap between successive clock readings. -/
theorem networkIdleLoop_wait_bound (start timeout idleTime gap : Nat)
    (htime : 1 ≤ timeout) :
    ∀ (polls : List NetPoll) (endTime prev : Nat),
    List.Chain' (fun a b => a ≤ b ∧ b ≤ a + gap)
      (prev :: (polls.map NetPoll.time ++ [endTime])) →
    prev < start + timeout →
    (∀ w, (networkIdleLoop start timeout idleTime endTime polls).1 =
      .finished w → w < timeout) ∧
    (∀ w, (networkIdleLoop start timeout idleTime endTime polls).1 =
      .timedOut w → w < timeout + gap) := by
  intro polls
  induction polls with
  | nil =>
      intro endTime prev hchain hprev
      simp only [List.map_nil, List.nil_append] at hchain
      obtain ⟨⟨hmono, hgap⟩, -⟩ := List.chain'_cons.mp hchain
      constructor
      · intro w hw
        simp [networkIdleLoop] at hw
      · intro w hw
        have hw' : w = endTime - start := by
          have := hw.symm
          simpa [networkIdleLoop] using this
        omega
  | cons p rest ih =>
      intro endTime prev hchain hprev
      simp only [List.map_cons, List.cons_append] at hchain
      obtain ⟨⟨hmono, hgap⟩, hchain'⟩ := List.chain'_cons.mp hchain
      rw [networkIdleLoop]
      by_cases ht : p.time - start < timeout
      · rw [if_pos ht]
        by_cases hi : p.pending = 0 ∧ idleTime ≤ p.time - p.lastActivity
        · rw [if_pos hi]
          constructor
          · intro w hw
            have hw' : w = p.time - start := by
              have := hw.symm
              simpa using this
            omega
          · intro w hw
            simp at hw
        · rw [if_neg hi]
          have hp : p.time < start + timeout := by omega
          exact ih endTime p.time hchain' hp
      · rw [if_neg ht]
        constructor
        · intro w hw
          simp at hw
        · intro w hw
          have hw' : w = p.time - start := by
            have := hw.symm
            simpa using this
          omega

/-- The elapsed values computed at the successive checks of the
WaitForNetworkIdle loop are non-decreasing whenever the clock readings are. -/
theorem networkIdleLoop_trace_mono (start timeout idleTime : Nat) :
    ∀ (polls : List NetPoll) (endTime prev : Nat),
    List.Chain' (· ≤ ·) (prev :: (polls.map NetPoll.time ++ [endTime])) →
    List.Chain' (· ≤ ·)
      ((prev - start) ::
        (networkIdleLoop start timeout idleTime endTime polls).2) := by
  intro polls
  induction polls with
  | nil =>
      intro endTime prev hchain
      simp only [List.map_nil, List.nil_append] at hchain
      obtain ⟨hle, -⟩ := List.chain'_cons.mp hchain
      exact List.chain'_cons.mpr
        ⟨Nat.sub_le_sub_right hle start, List.chain'_singleton _⟩
  | cons p rest ih =>
      intro endTime prev hchain
      simp only [List.map_cons, List.cons_append] at hchain
      obtain ⟨hle, hchain'⟩ := List.chain'_cons.mp hchain
      rw [networkIdleLoop]
      by_cases ht : p.time - start < timeout
      · rw [if_pos ht]
        by_cases hi : p.pending = 0 ∧ idleTime ≤ p.time - p.lastActivity
        · rw [if_pos hi]
          exact List.chain'_cons.mpr
            ⟨Nat.sub_le_sub_right hle start, List.chain'_singleton _⟩
        · rw [if_neg hi]
          exact List.chain'_cons.mpr
            ⟨Nat.sub_le_sub_right hle start, ih endTime p.time hchain'⟩
      · rw [if_neg ht]
        exact List.chain'_cons.mpr
          ⟨Nat.sub_le_sub_right hle start, List.chain'_singleton _⟩

/-- Bound on the wait reported by the WaitForPageStable loop, for any
internal state: a stable exit reports strictly less than the timeout; a
timeout exit stays below timeout plus the largest clock gap. -/
theorem pageStableLoop_wait_bound (start timeout gap : Nat)
    (htime : 1 ≤ timeout) :
    ∀ (samples : List StabilitySample) (endTime prev h c k : Nat),
    List.Chain' (fun a b => a ≤ b ∧ b ≤ a + gap)
      (prev :: (samples.map StabilitySample.time ++ [endTime])) →
    prev < start + timeout →
    (∀ w, (pageStableLoop start timeout endTime h c k samples).1 =
      .finished w → w < timeout) ∧
    (∀ w, (pageStableLoop start timeout endTime h c k samples).1 =
      .timedOut w → w < timeout + gap) := by
  intro samples
  induction samples with
  | nil =>
      intro endTime prev h c k hchain hprev
      simp only [List.map_nil, List.nil_append] at hchain
      obtain ⟨⟨hmono, hgap⟩, -⟩ := List.chain'_cons.mp hchain
      constructor
      · intro w hw
        simp [pageStableLoop] at hw
      · intro w hw
        have hw' : w = endTime - start := by
          have := hw.symm
          simpa [pageStableLoop] using this
        omega
  | cons s rest ih =>
      intro endTime prev h c k hchain hprev
      simp only [List.map_cons, List.cons_append] at hchain
      obtain ⟨⟨hmono, hgap⟩, hchain'⟩ := List.chain'_cons.mp hchain
      rw [pageStableLoop]
      by_cases ht : s.time - start < timeout
      · rw [if_pos ht]
        have hs : s.time < start + timeout := by omega
        by_cases hu : s.height = h ∧ s.contentHash = c
        · rw [if_pos hu]
          by_cases h3 : requiredStableChecks ≤ k + 1
          · rw [if_pos h3]
            constructor
            · intro w hw
              have hw' : w = s.time - start := by
                have := hw.symm
                simpa using this
              omega
            · intro w hw
              simp at hw
          · rw [if_neg h3]
            exact ih endTime s.time s.height s.contentHash (k + 1) hchain' hs
        · rw [if_neg hu]
          exact ih endTime s.time s.height s.contentHash 0 hchain' hs
      · rw [if_neg ht]
        constructor
        · intro w hw
          simp at hw
        · intro w hw
          have hw' : w = s.time - start := by
            have := hw.symm
            simpa using this
          omega

/-- The elapsed values computed at the successive checks of the
WaitForPageStable loop are non-decreasing whenever the clock readings are. -/
theorem pageStableLoop_trace_mono (start timeout : Nat) :
    ∀ (samples : List StabilitySample) (endTime prev h c k : Nat),
    List.Chain' (· ≤ ·)
      (prev :: (samples.map StabilitySample.time ++ [endTime])) →
    List.Chain' (· ≤ ·)
      ((prev - start) ::
        (pageStableLoop start timeout endTime h c k samples).2) := by
  intro samples
  induction samples with
  | nil =>
      intro endTime prev h c k hchain
      simp only [List.map_nil, List.nil_append] at hchain
      obtain ⟨hle, -⟩ := List.chain'_cons.mp hchain
      exact List.chain'_cons.mpr
        ⟨Nat.sub_le_sub_right hle start, List.chain'_singleton _⟩
  | cons s rest ih =>
      intro endTime prev h c k hchain
      simp only [List.map_cons, List.cons_append] at hchain
      obtain ⟨hle, hchain'⟩ := List.chain'_cons.mp hchain
      rw [pageStableLoop]
      by_cases ht : s.time - start < timeout
      · rw [if_pos ht]
        by_cases hu : s.height = h ∧ s.contentHash = c
        · rw [if_pos hu]
          by_cases h3 : requiredStableChecks ≤ k + 1
          · rw [if_pos h3]
            exact List.chain'_cons.mpr
              ⟨Nat.sub_le_sub_right hle start, List.chain'_singleton _⟩
          · rw [if_neg h3]
            exact List.chain'_cons.mpr
              ⟨Nat.sub_le_sub_right hle start,
               ih endTime s.time s.height s.contentHash (k + 1) hchain'⟩
        · rw [if_neg hu]
          exact List.chain'_cons.mpr
            ⟨Nat.sub_le_sub_right hle start,
             ih endTime s.time s.height s.contentHash 0 hchain'⟩
      · rw [if_neg ht]
        exact List.chain'_cons.mpr
          ⟨Nat.sub_le_sub_right hle start, List.chain'_singleton _⟩

/-- C7 counterexample: the returned wait is not bounded by the configured
timeout. With the default 10 s timeout and 2 requests still in flight, a
run whose first check past the deadline happens at 10050 ms returns
10050 ms, strictly above the 10000 ms timeout (it does not raise, matching
the rest of the claim, but the bound as claimed is violated). -/
theorem detector_wait_exceeds_timeout_counterexample :
    (networkIdleLoop 0 10000 500 0 [⟨100, 2, 100⟩, ⟨10050, 2, 10050⟩]).1 =
      .timedOut 10050 ∧
    defaultNetworkIdleTimeout = 10000 ∧ 10000 < 10050 := by
  decide

/-- C7 amended: for both polling detectors, the elapsed values observed at
successive checks are non-decreasing over the run whenever the clock is,
and the returned wait is strictly below the timeout on a ready exit and
strictly below the timeout plus the largest inter-check clock gap on a
timeout exit. -/
theorem detector_wait_monotone_and_bounded
    (start timeout idleTime endTime gap : Nat) (polls : List NetPoll)
    (sStart sTimeout sEnd sGap : Nat) (samples : List StabilitySample)
    (hto : 1 ≤ timeout) (hsto : 1 ≤ sTimeout)
    (hchain : List.Chain' (fun a b => a ≤ b ∧ b ≤ a + gap)
      (start :: (polls.map NetPoll.time ++ [endTime])))
    (hschain : List.Chain' (fun a b => a ≤ b ∧ b ≤ a + sGap)
      (sStart :: (samples.map StabilitySample.time ++ [sEnd]))) :
    (List.Chain' (· ≤ ·)
        (networkIdleLoop start timeout idleTime endTime polls).2 ∧
      (∀ w, (networkIdleLoop start timeout idleTime endTime polls).1 =
        .finished w → w < timeout) ∧
      (∀ w, (networkIdleLoop start timeout idleTime endTime polls).1 =
        .timedOut w → w < timeout + gap)) ∧
    (List.Chain' (· ≤ ·)
        (pageStableLoop sStart sTimeout sEnd 0 0 0 samples).2 ∧
      (∀ w, (pageStableLoop sStart sTimeout sEnd 0 0 0 samples).1 =
        .finished w → w < sTimeout) ∧
      (∀ w, (pageStableLoop sStart sTimeout sEnd 0 0 0 samples).1 =
        .timedOut w → w < sTimeout + sGap)) := by
  have hmono : List.Chain' (· ≤ ·)
      (start :: (polls.map NetPoll.time ++ [endTime])) :=
    hchain.imp (fun a b hab => hab.1)
  have hsmono : List.Chain' (· ≤ ·)
      (sStart :: (samples.map StabilitySample.time ++ [sEnd])) :=
    hschain.imp (fun a b hab => hab.1)
  have hb := networkIdleLoop_wait_bound start timeout idleTime gap hto polls
    endTime start hchain (by omega)
  have hsb := pageStableLoop_wait_bound sStart sTimeout sGap hsto samples
    sEnd sStart 0 0 0 hschain (by omega)
  refine ⟨⟨?_, hb.1, hb.2⟩, ⟨?_, hsb.1, hsb.2⟩⟩
  · exact (networkIdleLoop_trace_mono start timeout idleTime polls endTime
      start hmono).tail
  · exact (pageStableLoop_trace_mono sStart sTimeout samples sEnd sStart
      0 0 0 hsmono).tail

/-- Witness for C7 amended: a concrete idle exit at 100 ms stays below the
10 s timeout and its check trace is non-decreasing. -/
theorem detector_wait_monotone_and_bounded_witness :
    (100 : Nat) < 10000 ∧
    List.Chain' (· ≤ ·) (networkIdleLoop 0 10000 50 200 [⟨100, 0, 0⟩]).2 :=
  ⟨(detector_wait_monotone_and_bounded 0 10000 50 200 100 [⟨100, 0, 0⟩]
      0 5000 0 100 [] (by decide) (by decide)
      (by simp [List.chain'_cons]) (by simp [List.chain'_cons])).1.2.1
      100 (by decide),
   (detector_wait_monotone_and_bounded 0 10000 50 200 100 [⟨100, 0, 0⟩]
      0 5000 0 100 [] (by decide) (by decide)
      (by simp [List.chain'_cons]) (by simp [List.chain'_cons])).1.1⟩

end TrmnlHA
